import Mathlib

/-!
Verification of the webteg-bot change-polling core.

Text is modelled as `List Char` (JS strings; `substring`/`length` become
`List.take`/`List.length`).  JS `Date` values appear as `Int` epoch
milliseconds: a record's `timestamp` field holds the value
`new Date(change.timestamp).getTime()` would produce, and the reference
time `now` is `Date.now()`.  Network effects are modelled by oracles:
a per-project fetch oracle, a messaging-endpoint oracle indexed by call
number, and explicit clock readings.
-/

namespace Webteg

abbrev Str := List Char

/-- A Weblate change record (interface `WeblateChange` in `api/check-rss.ts`):
`id, action_name, target, timestamp, translation, user, component, url`.
`timestamp` is the epoch-millisecond value of the record's timestamp string. -/
structure Change where
  id : Int
  action_name : Str
  target : Str
  timestamp : Int
  translation : Str
  user : Str
  component : Str
  url : Str
deriving DecidableEq, Repr, Inhabited

/-- JS truthiness of an optional environment variable: `undefined` and the
empty string are falsy, any other string is truthy. -/
def truthy : Option Str → Bool
  | none => false
  | some s => !s.isEmpty

/-- A response of the messaging endpoint: an HTTP status, or a thrown
network error (the `catch` branch of `sendTelegramMessage`). -/
inductive TgResult where
  | status (code : Nat)
  | exn
deriving DecidableEq, Repr

/-- Function `sendTelegramMessage` (`api/check-rss.ts` lines 30-62): one
`fetch` of the send endpoint; returns `true` iff `response.ok` (status
200-299); any failure or thrown error yields `false`.  There is no loop in
the source: the function issues exactly one request. -/
def sendTelegramMessage (resp : TgResult) : Bool :=
  match resp with
  | .status code => decide (200 ≤ code) && decide (code < 300)
  | .exn => false

/-- Outcome of delivering one change (spec's `NotificationOutcome`). -/
structure NotificationOutcome where
  sent : Bool
  attempts : Nat
deriving DecidableEq, Repr

/-- Delivery of one change by the handler (`api/check-rss.ts` line 249):
`const sent = await sendTelegramMessage(...)` — a single call to the
endpoint, no retry loop.  `endpoint n` is the response the messaging
endpoint would give to the n-th call; the handler only ever performs
call 0 for a given change, so the outcome records one attempt. -/
def notifyChange (endpoint : Nat → TgResult) : NotificationOutcome :=
  { sent := sendTelegramMessage (endpoint 0), attempts := 1 }

/-- The recency filter plus cap (`api/check-rss.ts` lines 192-197):
`changes.filter(hoursDiff <= windowHours).slice(0, cap)` where
`hoursDiff = (now - changeTime) / 3600000`.  The observed window is 3 hours
and the cap 5 in this variant (2 hours in the multi-project variant); both
appear here as parameters, instantiated per variant. -/
def recentOf (changes : List Change) (now wh : Int) (cap : Nat) : List Change :=
  (changes.filter (fun c => decide (now - c.timestamp ≤ wh * 3600000))).take cap

/-- What the selector hands to the notification loop: the records to notify,
the recent set, and the `isRecent` flag (`recentChanges.length > 0`) that
picks the 🔔/"Güncellemesi" versus 📋/"Son Değişiklik" rendering. -/
structure Selection where
  toNotify : List Change
  recent : List Change
  isRecent : Bool
deriving DecidableEq, Repr

/-- Change selection (`api/check-rss.ts` lines 192-213): recency filter and
cap, then `changesToNotify = recentChanges.length > 0 ? recentChanges :
changes.slice(0, 1)`. -/
def selectChanges (changes : List Change) (now wh : Int) (cap : Nat) : Selection :=
  let recent := recentOf changes now wh cap
  if 0 < recent.length then ⟨recent, recent, true⟩ else ⟨changes.take 1, recent, false⟩

/-- Is an id already a key of the accumulated entry list? -/
def keyMem (m : List (Int × Change)) (k : Int) : Bool :=
  m.any (fun p => decide (p.1 = k))

/-- One insertion step of the JS `Map` constructor: `Map.prototype.set`
updates the value in place when the key exists (keeping the key's original
position) and appends a fresh entry otherwise. -/
def upsert (m : List (Int × Change)) (c : Change) : List (Int × Change) :=
  if keyMem m c.id then m.map (fun p => if p.1 = c.id then (p.1, c) else p)
  else m ++ [(c.id, c)]

/-- Deduplication by id (`src/unnamed/part_003` lines 219-222):
`Array.from(new Map(filteredChanges.map(c => [c.id, c])).values())`.
The `Map` is built by inserting the pairs left to right. -/
def uniqueChanges (l : List Change) : List Change :=
  (l.foldl upsert []).map Prod.snd

/-- The last record in the list whose `id` is `k`, if any. -/
def lastWithId (k : Int) : List Change → Option Change
  | [] => none
  | c :: rest =>
    match lastWithId k rest with
    | some d => some d
    | none => if c.id = k then some c else none

/-- Reference semantics of the JS `Map` deduplication, stated directly
(amended spec): each id appears once, at the position of its *first*
occurrence, and the record kept for that id is its *last* occurrence in the
input. -/
def jsDedup : List Change → List Change
  | [] => []
  | c :: rest =>
    (lastWithId c.id rest).getD c :: jsDedup (rest.filter (fun d => decide (d.id ≠ c.id)))
termination_by l => l.length
decreasing_by
  simp only [List.length_cons]
  exact Nat.lt_succ_of_le (rest.length_filter_le _)

/-- The JS comparator `(a, b) => b.timestamp - a.timestamp` orders by
timestamp, newest first. -/
def byNewest (a b : Change) : Bool :=
  decide (b.timestamp ≤ a.timestamp)

/-- The sort step `filteredChanges.sort` with the newest-first comparator
(`src/unnamed/part_003` lines 214-216); JS `Array.prototype.sort` is a
stable sort by the comparator, modelled as a stable merge sort. -/
def sortNewest (l : List Change) : List Change :=
  l.mergeSort byNewest

/-- The selection stage of `src/unnamed/part_003` (lines 214-238): sort
newest-first, deduplicate by id, recency filter (3 hours, cap 5), and the
same single-record fallback. -/
def selectSorted (changes : List Change) (now : Int) : Selection :=
  selectChanges (uniqueChanges (sortNewest changes)) now 3 5

/-- A watched subscription as used by the run loop: project slug and display
name (`subscription.project.slug` / `.name`). -/
structure Sub where
  slug : Str
  name : Str
deriving DecidableEq, Repr

/-- Result of the per-project changes fetch: parsed change list on a 2xx
response, the HTTP status on `!response.ok`, or a thrown error message. -/
inductive FetchResult where
  | ok (changes : List Change)
  | httpError (code : Nat)
  | exn (msg : Str)
deriving DecidableEq, Repr

/-- One element of the `results` array the handler pushes per project.
Fields that a given branch of the source does not set are `none`. -/
structure ProjectResultM where
  project : Str
  success : Bool
  changes : Option Nat
  recent : Option Nat
  total : Option Nat
  error : Option Str
  message : Option Str
deriving DecidableEq, Repr

/-- Decimal rendering of a number, for the per-project error string
"HTTP <status>" built by the template literal. -/
def natStr (n : Nat) : Str :=
  (toString n).data

/-- Count of successful sends among `n` consecutive endpoint calls starting
at call index `start` (the `if (sent) sentCount++` accounting of the send
loop). -/
def sentIn (tgSend : Nat → TgResult) (start n : Nat) : Nat :=
  ((List.range n).filter (fun i => sendTelegramMessage (tgSend (start + i)))).length

/-- The `results` entry produced for one project, as a function of the fetch
outcome, the reference time and the index of the next endpoint call; mirrors
the four `results.push` sites of `api/check-rss.ts` lines 167-276. -/
def projRecord (fetchProj : Str → FetchResult) (tgSend : Nat → TgResult) (now : Int)
    (sendIdx : Nat) (sub : Sub) : ProjectResultM :=
  match fetchProj sub.slug with
  | .httpError code => ⟨sub.name, false, none, none, none, some ("HTTP ".data ++ natStr code), none⟩
  | .exn m => ⟨sub.name, false, none, none, none, some m, none⟩
  | .ok changes =>
    if changes.isEmpty then
      ⟨sub.name, true, some 0, none, none, none, some "Değişiklik yok".data⟩
    else
      let sel := selectChanges changes now 3 5
      ⟨sub.name, true, some (sentIn tgSend sendIdx sel.toNotify.length),
        some sel.recent.length, some changes.length, none, none⟩

/-- State threaded through the per-project loop of the handler: the running
totals, the `results` array, the number of network calls issued so far, and
the index of the next messaging-endpoint call. -/
structure RunState where
  totalSent : Nat
  totalRecent : Nat
  results : List ProjectResultM
  netCalls : Nat
  sendIdx : Nat
deriving DecidableEq, Repr

/-- One iteration of the per-project loop (`api/check-rss.ts` lines 148-282):
fetch the project's changes (one network call); on `!response.ok` or a thrown
error push a failure result and continue; on an empty list push a
no-changes result; otherwise select, send each selected change to the
messaging endpoint (one call each) and push a success result. -/
def processProject (fetchProj : Str → FetchResult) (tgSend : Nat → TgResult) (now : Int)
    (st : RunState) (sub : Sub) : RunState :=
  match fetchProj sub.slug with
  | .httpError code =>
    { st with
      netCalls := st.netCalls + 1,
      results := st.results ++
        [⟨sub.name, false, none, none, none, some ("HTTP ".data ++ natStr code), none⟩] }
  | .exn m =>
    { st with
      netCalls := st.netCalls + 1,
      results := st.results ++ [⟨sub.name, false, none, none, none, some m, none⟩] }
  | .ok changes =>
    if changes.isEmpty then
      { st with
        netCalls := st.netCalls + 1,
        results := st.results ++
          [⟨sub.name, true, some 0, none, none, none, some "Değişiklik yok".data⟩] }
    else
      let sel := selectChanges changes now 3 5
      let sent := sentIn tgSend st.sendIdx sel.toNotify.length
      { totalSent := st.totalSent + sent,
        totalRecent := st.totalRecent + sel.recent.length,
        results := st.results ++
          [⟨sub.name, true, some sent, some sel.recent.length, some changes.length, none, none⟩],
        netCalls := st.netCalls + 1 + sel.toNotify.length,
        sendIdx := st.sendIdx + sel.toNotify.length }

/-- The `for (const subscription of subscriptions)` loop.  `nowAt i` is the
`new Date()` reading taken inside iteration `i`.  The loop body never reads
the invocation start time: the source consults `startTime` only after the
loop, to compute `execution_time_ms`. -/
def runProjects (fetchProj : Str → FetchResult) (tgSend : Nat → TgResult)
    (nowAt : Nat → Int) : Nat → RunState → List Sub → RunState
  | _, st, [] => st
  | i, st, sub :: rest =>
    runProjects fetchProj tgSend nowAt (i + 1)
      (processProject fetchProj tgSend (nowAt i) st sub) rest

/-- The environment variables read by the poll entry point. -/
structure Env where
  botToken : Option Str
  chatId : Option Str
  apiKey : Option Str
deriving DecidableEq, Repr

/-- The JSON bodies the poll entry point can return. -/
inductive Body where
  | missingConfig (error : Str) (has_token has_chat_id : Bool)
  | missingApiKey
  | noSubscriptions
  | summary (total_notifications total_recent_changes subscribed_projects : Nat)
      (projects : List ProjectResultM) (execution_time_ms : Int)
deriving DecidableEq, Repr

/-- HTTP status, JSON body, and the number of outbound network calls the
handler issued before responding. -/
structure HandlerOut where
  status : Nat
  body : Body
  netCalls : Nat
deriving DecidableEq, Repr

/-- The poll entry point (`api/check-rss.ts` lines 103-306).  Config checks
come first and return HTTP 500 before any network call; then one call fetches
the subscription list (`userSubs` is the project list it yields); then the
per-project loop runs; finally HTTP 200 with the aggregated summary, whose
`execution_time_ms` is `endTime - startTime` (`Date.now()` at entry and after
the loop). -/
def handler (env : Env) (userSubs : List Sub) (fetchProj : Str → FetchResult)
    (tgSend : Nat → TgResult) (nowAt : Nat → Int) (startTime endTime : Int) : HandlerOut :=
  if !(truthy env.botToken && truthy env.chatId) then
    ⟨500, .missingConfig "Missing configuration".data (truthy env.botToken) (truthy env.chatId), 0⟩
  else if !truthy env.apiKey then
    ⟨500, .missingApiKey, 0⟩
  else if userSubs.isEmpty then
    ⟨200, .noSubscriptions, 1⟩
  else
    let fin := runProjects fetchProj tgSend nowAt 0 ⟨0, 0, [], 1, 0⟩ userSubs
    ⟨200, .summary fin.totalSent fin.totalRecent userSubs.length fin.results
      (endTime - startTime), fin.netCalls⟩

/-- The parts of an inbound webhook request the secret check looks at. -/
structure WebhookReq where
  method : Str
  xHubSignature : Option Str
  querySecret : Option Str
deriving DecidableEq, Repr

/-- JS truthiness of an optional request value (header or query parameter). -/
def optTruthy : Option Str → Bool
  | none => false
  | some s => !s.isEmpty

/-- The expression taking the x-hub-signature header when it is truthy and
otherwise the secret query parameter (a JS short-circuit or). -/
def providedSecret (r : WebhookReq) : Option Str :=
  if optTruthy r.xHubSignature then r.xHubSignature else r.querySecret

/-- Environment of the webhook entry point. -/
structure WebhookEnv where
  botToken : Option Str
  chatId : Option Str
  webhookSecret : Option Str
deriving DecidableEq, Repr

/-- Status code returned by the webhook entry point (`api/weblate.ts`,
`src/unnamed/part_004`): 405 for non-POST, 500 for missing bot config,
403 when a truthy `WEBHOOK_SECRET` is configured and the provided secret is
strictly different from it, otherwise 200 on a successful forward and 500 on
a messaging-endpoint failure. -/
def webhookStatus (env : WebhookEnv) (r : WebhookReq) (tgResp : TgResult) : Nat :=
  if r.method ≠ "POST".data then 405
  else if !(truthy env.botToken && truthy env.chatId) then 500
  else if optTruthy env.webhookSecret && !decide (providedSecret r = env.webhookSecret) then 403
  else if sendTelegramMessage tgResp then 200
  else 500

/-- The target-text segment of the rendered message
(`api/check-rss.ts` line 246): empty when `change.target` is falsy, otherwise
`📄 <code>` + the first 100 characters + `...` when longer than 100 +
`</code>` and a blank line. -/
def renderTarget (target : Str) : Str :=
  if target.isEmpty then []
  else
    "📄 <code>".data ++ target.take 100 ++
      (if 100 < target.length then "...".data else []) ++ "</code>\n\n".data

/-- Header emoji: 🔔 for a recent ("new change") notification, 📋 for the
fallback "latest known" notification. -/
def headerEmoji (isRecent : Bool) : Str :=
  if isRecent then "🔔".data else "📋".data

/-- Header word: "Güncellemesi" for recent, "Son Değişiklik" for fallback. -/
def headerWord (isRecent : Bool) : Str :=
  if isRecent then "Güncellemesi".data else "Son Değişiklik".data

/-- The message template of `api/check-rss.ts` lines 239-247, parameterised
on the already-extracted display pieces (component name, language code in
upper case, action emoji, cleaned user name, formatted time). -/
def renderMessage (isRecent : Bool)
    (projectName componentName langFlag langCode actionEmoji actionName userName timeStr : Str)
    (target url : Str) : Str :=
  headerEmoji isRecent ++ " <b>Weblate ".data ++ headerWord isRecent ++ "</b>\n\n".data ++
  "📦 <b>Proje:</b> ".data ++ projectName ++ "\n".data ++
  "🧩 <b>Bileşen:</b> ".data ++ componentName ++ "\n".data ++
  langFlag ++ " <b>Dil:</b> ".data ++ langCode ++ "\n".data ++
  actionEmoji ++ " <b>Aksiyon:</b> ".data ++ actionName ++ "\n".data ++
  "👤 <b>Kullanıcı:</b> ".data ++ userName ++ "\n".data ++
  "🕒 <b>Zaman:</b> ".data ++ timeStr ++ "\n\n".data ++
  renderTarget target ++
  (if url.isEmpty then [] else "🔗 <a href=\"".data ++ url ++ "\">Detayları Gör</a>".data)

/-- Sample record: old change (timestamp 0 ms). -/
def cOld : Change :=
  ⟨1, "changed translation".data, "Hello".data, 0, "/tr/".data, "/u/ann".data, "/c/app".data, "u1".data⟩

/-- Sample record: newer change (timestamp 1000 ms). -/
def cNew : Change :=
  ⟨2, "new translation".data, "World".data, 1000, "/en/".data, "/u/bob".data, "/c/app".data, "u2".data⟩

/-- Sample pair with the same id and different payloads. -/
def cDup1 : Change :=
  ⟨7, "comment added".data, "a".data, 50, "/en/".data, "/u/ann".data, "/c/app".data, "u3".data⟩

/-- Second record with id 7, appearing later in the batch. -/
def cDup2 : Change :=
  ⟨7, "comment added".data, "b".data, 40, "/en/".data, "/u/bob".data, "/c/app".data, "u4".data⟩

/-- A reference time far (about 11.6 days) after every sample timestamp. -/
def tLate : Int := 1000000000

/-- Sample subscription A. -/
def subA : Sub := ⟨"proj-a".data, "Proj A".data⟩

/-- Sample subscription B. -/
def subB : Sub := ⟨"proj-b".data, "Proj B".data⟩

/-- Environment with all three variables present. -/
def envFull : Env := ⟨some "t".data, some "c".data, some "k".data⟩

/-- Environment with bot token and chat id absent. -/
def envNoTok : Env := ⟨none, none, none⟩

/-- Fetch oracle: every project fetch succeeds with one change. -/
def fetchOkAll : Str → FetchResult := fun _ => .ok [cNew]

/-- Fetch oracle: project A's fetch fails with HTTP 503, others succeed. -/
def fetchAFails : Str → FetchResult := fun s =>
  if s = "proj-a".data then .httpError 503 else .ok [cNew]

/-- Messaging endpoint that accepts every call. -/
def tgAllOk : Nat → TgResult := fun _ => .status 200

/-- Messaging endpoint that returns HTTP 429 on the first two calls and
HTTP 200 from the third call on. -/
def ep429 : Nat → TgResult := fun n => if n < 2 then .status 429 else .status 200

/-- Clock oracle: every in-loop time reading is `tLate`. -/
def nowLate : Nat → Int := fun _ => tLate

/-- Webhook environment with a configured secret "s". -/
def wEnvSec : WebhookEnv := ⟨some "t".data, some "c".data, some "s".data⟩

/-- Webhook environment with no secret configured. -/
def wEnvNone : WebhookEnv := ⟨some "t".data, some "c".data, none⟩

/-- POST request carrying a wrong (truthy) signature header and the correct
secret in the query string. -/
def reqMix : WebhookReq := ⟨"POST".data, some "wrong".data, some "s".data⟩

/-- POST request carrying only a wrong signature header. -/
def reqWrong : WebhookReq := ⟨"POST".data, some "nope".data, none⟩

/-- C1, counterexample: with the messaging endpoint answering HTTP 429 twice
and then 200, delivery of a change does NOT return `{sent:true, attempts:3}`
— the code performs a single attempt and returns `{sent:false, attempts:1}`,
because `sendTelegramMessage` contains no retry loop. -/
theorem notify_retry_counterexample :
    ¬ ((notifyChange ep429).sent = true ∧ (notifyChange ep429).attempts = 3) := by
  decide

/-- C1, amended: delivery of a change performs exactly one attempt, with no
retry and no backoff; it reports `sent = true` exactly when the single
response of the messaging endpoint has a 2xx status. -/
theorem notify_single_attempt_spec (endpoint : Nat → TgResult) :
    (notifyChange endpoint).attempts = 1 ∧
    (notifyChange endpoint).sent = sendTelegramMessage (endpoint 0) ∧
    ((notifyChange endpoint).sent = true ↔
      ∃ code, endpoint 0 = .status code ∧ 200 ≤ code ∧ code < 300) := by
  refine ⟨rfl, rfl, ?_⟩
  cases h : endpoint 0 with
  | status code =>
    simp only [notifyChange, sendTelegramMessage, h, Bool.and_eq_true, decide_eq_true_eq]
    constructor
    · rintro ⟨h1, h2⟩
      exact ⟨code, rfl, h1, h2⟩
    · rintro ⟨c, hc, h1, h2⟩
      cases hc
      exact ⟨h1, h2⟩
  | exn =>
    simp [notifyChange, sendTelegramMessage, h]

/-- C5: whenever the recent path was taken (`isRecent = true`, i.e. the
fallback-single-record path was not), every returned record satisfies
`now - timestamp ≤ window` (the window expressed in milliseconds). -/
theorem select_recency_bound (changes : List Change) (now wh : Int) (cap : Nat) (c : Change)
    (hrec : (selectChanges changes now wh cap).isRecent = true)
    (hmem : c ∈ (selectChanges changes now wh cap).toNotify) :
    now - c.timestamp ≤ wh * 3600000 := by
  simp only [selectChanges] at hrec hmem
  by_cases h : 0 < (recentOf changes now wh cap).length
  · rw [if_pos h] at hmem
    simp only [recentOf] at hmem
    have hf := List.take_subset _ _ hmem
    exact of_decide_eq_true (List.mem_filter.mp hf).2
  · rw [if_neg h] at hrec
    exact absurd hrec (by simp)

/-- C5, witness at a concrete input on the recent path. -/
theorem select_recency_bound_witness :
    (selectChanges [cNew] 2000 3 5).isRecent = true ∧ 2000 - cNew.timestamp ≤ 3 * 3600000 :=
  ⟨by decide, select_recency_bound [cNew] 2000 3 5 cNew (by decide) (by decide)⟩

/-- C6: on both the recent path and the fallback path the selector returns at
most `cap` records (for any cap of at least 1; the observed caps are 1, 3
and 5). -/
theorem select_length_le_cap (changes : List Change) (now wh : Int) (cap : Nat)
    (hcap : 1 ≤ cap) :
    (selectChanges changes now wh cap).toNotify.length ≤ cap := by
  simp only [selectChanges, recentOf]
  split
  · simp [List.length_take]
  · simp only [List.length_take]
    omega

/-- C6, witness at a concrete input. -/
theorem select_length_le_cap_witness :
    1 ≤ 5 ∧ (selectChanges [cOld, cNew] tLate 3 5).toNotify.length ≤ 5 :=
  ⟨by decide, select_length_le_cap [cOld, cNew] tLate 3 5 (by decide)⟩

/-- C7: when the bot token or the chat id environment variable is absent, the
poll entry point returns HTTP 500 with body
`{error: "Missing configuration", has_token, has_chat_id}` reflecting which
values are present, and issues zero network calls. -/
theorem handler_missing_config (env : Env) (userSubs : List Sub)
    (fetchProj : Str → FetchResult) (tgSend : Nat → TgResult) (nowAt : Nat → Int)
    (startTime endTime : Int) (h : env.botToken = none ∨ env.chatId = none) :
    handler env userSubs fetchProj tgSend nowAt startTime endTime =
      ⟨500, .missingConfig "Missing configuration".data (truthy env.botToken)
        (truthy env.chatId), 0⟩ := by
  have hcond : (truthy env.botToken && truthy env.chatId) = false := by
    cases h with
    | inl h => simp [h, truthy]
    | inr h => simp [h, truthy]
  simp [handler, hcond]

/-- C7, witness: with both variables absent the handler returns the 500
response with `has_token = false`, `has_chat_id = false` and zero network
calls. -/
theorem handler_missing_config_witness :
    envNoTok.botToken = none ∧
    handler envNoTok [] fetchOkAll tgAllOk nowLate 0 0 =
      ⟨500, .missingConfig "Missing configuration".data false false, 0⟩ :=
  ⟨rfl, handler_missing_config envNoTok [] fetchOkAll tgAllOk nowLate 0 0 (Or.inl rfl)⟩

/-- C9: the rendered message contains the record's target text truncated to
its first 100 characters followed by `...` when it exceeds 100 characters,
and unchanged when its length is at most 100. -/
theorem render_truncates_target (isRecent : Bool)
    (projectName componentName langFlag langCode actionEmoji actionName userName timeStr : Str)
    (target url : Str) :
    ∃ p q,
      renderMessage isRecent projectName componentName langFlag langCode actionEmoji
          actionName userName timeStr target url =
        p ++ (if target.length ≤ 100 then target else target.take 100 ++ "...".data) ++ q := by
  by_cases h100 : target.length ≤ 100
  · rw [if_pos h100]
    by_cases he : target.isEmpty
    · have ht : target = [] := by
        cases target with
        | nil => rfl
        | cons a l => simp [List.isEmpty] at he
      refine ⟨renderMessage isRecent projectName componentName langFlag langCode actionEmoji
        actionName userName timeStr target url, [], ?_⟩
      simp [ht]
    · refine ⟨headerEmoji isRecent ++ " <b>Weblate ".data ++ headerWord isRecent ++
        "</b>\n\n".data ++ "📦 <b>Proje:</b> ".data ++ projectName ++ "\n".data ++
        "🧩 <b>Bileşen:</b> ".data ++ componentName ++ "\n".data ++ langFlag ++
        " <b>Dil:</b> ".data ++ langCode ++ "\n".data ++ actionEmoji ++
        " <b>Aksiyon:</b> ".data ++ actionName ++ "\n".data ++ "👤 <b>Kullanıcı:</b> ".data ++
        userName ++ "\n".data ++ "🕒 <b>Zaman:</b> ".data ++ timeStr ++ "\n\n".data ++
        "📄 <code>".data,
        "</code>\n\n".data ++
          (if url.isEmpty then [] else "🔗 <a href=\"".data ++ url ++ "\">Detayları Gör</a>".data),
        ?_⟩
      rw [renderMessage, renderTarget, if_neg he, if_neg (by omega),
        List.take_of_length_le h100]
      simp [List.append_assoc]
  · rw [if_neg h100]
    have he : ¬ target.isEmpty = true := by
      cases target with
      | nil => simp at h100
      | cons a l => simp [List.isEmpty]
    refine ⟨headerEmoji isRecent ++ " <b>Weblate ".data ++ headerWord isRecent ++
      "</b>\n\n".data ++ "📦 <b>Proje:</b> ".data ++ projectName ++ "\n".data ++
      "🧩 <b>Bileşen:</b> ".data ++ componentName ++ "\n".data ++ langFlag ++
      " <b>Dil:</b> ".data ++ langCode ++ "\n".data ++ actionEmoji ++
      " <b>Aksiyon:</b> ".data ++ actionName ++ "\n".data ++ "👤 <b>Kullanıcı:</b> ".data ++
      userName ++ "\n".data ++ "🕒 <b>Zaman:</b> ".data ++ timeStr ++ "\n\n".data ++
      "📄 <code>".data,
      "</code>\n\n".data ++
        (if url.isEmpty then [] else "🔗 <a href=\"".data ++ url ++ "\">Detayları Gör</a>".data),
      ?_⟩
    rw [renderMessage, renderTarget, if_neg he, if_pos (by omega)]
    simp [List.append_assoc]

/-- C10, counterexample: with a configured secret "s", a POST request whose
signature header is a wrong non-empty string and whose `secret` query
parameter equals the configured secret is still rejected with 403, because
the truthy header short-circuits the `||` and the query parameter is never
compared. -/
theorem webhook_secret_counterexample :
    webhookStatus wEnvSec reqMix (.status 200) = 403 ∧
    reqMix.querySecret = some "s".data ∧ wEnvSec.webhookSecret = some "s".data := by
  decide

/-- C10, amended: when the shared-secret variable is unset, the secret check
is skipped and no request is rejected with 403.  When a non-empty secret is
configured, a POST request that passes the configuration check is rejected
with 403 exactly when the *effective* provided secret — the `x-hub-signature`
header if truthy, otherwise the `secret` query parameter — differs from the
configured secret. -/
theorem webhook_secret_spec (env : WebhookEnv) (r : WebhookReq) (tgResp : TgResult) :
    (env.webhookSecret = none → webhookStatus env r tgResp ≠ 403) ∧
    (∀ s : Str, env.webhookSecret = some s → s ≠ [] →
      r.method = "POST".data → truthy env.botToken = true → truthy env.chatId = true →
      (webhookStatus env r tgResp = 403 ↔ providedSecret r ≠ some s)) := by
  constructor
  · intro hnone
    unfold webhookStatus
    rw [hnone]
    have : (optTruthy none && !decide (providedSecret r = none)) = false := by
      simp [optTruthy]
    rw [this]
    split
    · decide
    · split
      · decide
      · rw [if_neg (by simp)]
        split
        · decide
        · decide
  · intro s hs hsne hpost hbt hct
    unfold webhookStatus
    rw [if_neg (by simp [hpost]), if_neg (by simp [hbt, hct]), hs]
    have hot : optTruthy (some s) = true := by
      cases s with
      | nil => exact absurd rfl hsne
      | cons a l => simp [optTruthy, List.isEmpty]
    constructor
    · intro h403
      by_contra heq
      rw [hot, heq] at h403
      have hcond : (true && !decide (some s = some s)) = false := by simp
      rw [hcond, if_neg (by simp : ¬ (false = true))] at h403
      split at h403 <;> omega
    · intro hne
      rw [hot]
      have : decide (providedSecret r = some s) = false := decide_eq_false hne
      rw [this]
      rfl

/-- C10, witness: with no configured secret even a wrong-header request is
not rejected with 403; with secret "s" configured, a POST request whose
effective provided secret is wrong is rejected with 403. -/
theorem webhook_secret_spec_witness :
    webhookStatus wEnvNone reqMix (.status 200) ≠ 403 ∧
    webhookStatus wEnvSec reqWrong (.status 200) = 403 :=
  ⟨(webhook_secret_spec wEnvNone reqMix (.status 200)).1 rfl,
   ((webhook_secret_spec wEnvSec reqWrong (.status 200)).2 "s".data rfl (by decide) rfl
      (by decide) (by decide)).mpr (by decide)⟩

/-- The last-occurrence lookup is unchanged by a filter that keeps every
record whose id is the key in question. -/
theorem lastWithId_filter (k : Int) (p : Change → Bool) (l : List Change)
    (h : ∀ d, d.id = k → p d = true) :
    lastWithId k (l.filter p) = lastWithId k l := by
  induction l with
  | nil => rfl
  | cons c t ih =>
    by_cases hp : p c = true
    · rw [List.filter_cons_of_pos hp]
      simp only [lastWithId, ih]
    · rw [List.filter_cons_of_neg (by simpa using hp)]
      have hc : ¬ c.id = k := fun he => hp (h c he)
      rw [ih]
      simp only [lastWithId]
      cases lastWithId k t with
      | none => simp [hc]
      | some d => rfl

/-- In-place value replacement does not change the key set. -/
theorem keyMem_map_replace (m : List (Int × Change)) (c : Change) (k : Int) :
    keyMem (m.map (fun p => if p.1 = c.id then (p.1, c) else p)) k = keyMem m k := by
  simp only [keyMem, List.any_map]
  congr 1
  funext p
  by_cases h : p.1 = c.id <;> simp [h]

/-- Key membership after appending a fresh entry. -/
theorem keyMem_append_single (m : List (Int × Change)) (c : Change) (k : Int) :
    keyMem (m ++ [(c.id, c)]) k = (keyMem m k || decide (c.id = k)) := by
  simp [keyMem, List.any_append]

/-- Closed form of the JS `Map` insertion fold: the values of the final map
are the already-present entries, each updated to the last occurrence of its
key in `l` (keeping its position), followed by the `jsDedup` of the records
of `l` whose keys are new. -/
theorem foldl_upsert_spec (l : List Change) :
    ∀ m : List (Int × Change),
      (l.foldl upsert m).map Prod.snd =
        m.map (fun p => (lastWithId p.1 l).getD p.2) ++
          jsDedup (l.filter (fun c => !keyMem m c.id)) := by
  induction l with
  | nil =>
    intro m
    simp [jsDedup, lastWithId]
  | cons c t ih =>
    intro m
    rw [List.foldl_cons, ih (upsert m c)]
    by_cases h : keyMem m c.id = true
    · have hup : upsert m c = m.map (fun p => if p.1 = c.id then (p.1, c) else p) := by
        rw [upsert, if_pos h]
      rw [hup]
      have hfil : t.filter
            (fun d => !keyMem (m.map (fun p => if p.1 = c.id then (p.1, c) else p)) d.id) =
          t.filter (fun d => !keyMem m d.id) := by
        apply List.filter_congr
        intro d _
        rw [keyMem_map_replace]
      rw [hfil, List.filter_cons_of_neg (by simp [h]), List.map_map]
      congr 1
      apply List.map_congr_left
      intro p _
      show (lastWithId (if p.1 = c.id then (p.1, c) else p).1 t).getD
          (if p.1 = c.id then (p.1, c) else p).2 = (lastWithId p.1 (c :: t)).getD p.2
      by_cases hp : p.1 = c.id
      · rw [if_pos hp]
        simp only [lastWithId]
        cases lastWithId p.1 t with
        | some d => rfl
        | none => simp [hp.symm]
      · rw [if_neg hp]
        simp only [lastWithId]
        cases lastWithId p.1 t with
        | some d => rfl
        | none => rw [if_neg (fun he => hp (Eq.symm he))]
    · have hfalse : keyMem m c.id = false := by
        revert h
        cases keyMem m c.id <;> simp
      have hup : upsert m c = m ++ [(c.id, c)] := by
        rw [upsert, if_neg (by simp [hfalse])]
      rw [hup, List.map_append]
      have hfil : t.filter (fun d => !keyMem (m ++ [(c.id, c)]) d.id) =
          t.filter (fun d => !keyMem m d.id && !decide (c.id = d.id)) := by
        apply List.filter_congr
        intro d _
        rw [keyMem_append_single, Bool.not_or]
      rw [hfil, List.filter_cons_of_pos (by simp [hfalse]), jsDedup]
      have hlast : lastWithId c.id (t.filter (fun d => !keyMem m d.id)) =
          lastWithId c.id t := by
        apply lastWithId_filter
        intro d hd
        rw [hd, hfalse]
        rfl
      rw [hlast]
      have hfil2 : (t.filter (fun d => !keyMem m d.id)).filter
            (fun d => decide (d.id ≠ c.id)) =
          t.filter (fun d => !keyMem m d.id && !decide (c.id = d.id)) := by
        rw [List.filter_filter]
        congr 1
        funext d
        by_cases h1 : d.id = c.id
        · simp [h1]
        · have h2 : ¬ c.id = d.id := fun he => h1 (Eq.symm he)
          simp [h1, h2, Bool.and_comm]
      rw [hfil2]
      have hmapm : m.map (fun p => (lastWithId p.1 t).getD p.2) =
          m.map (fun p => (lastWithId p.1 (c :: t)).getD p.2) := by
        apply List.map_congr_left
        intro p hp
        have hne : ¬ p.1 = c.id := by
          have hall := List.any_eq_false.mp hfalse p hp
          simpa using hall
        simp only [lastWithId]
        cases lastWithId p.1 t with
        | some d => rfl
        | none => rw [if_neg (fun he => hne (Eq.symm he))]
      rw [hmapm]
      simp [List.append_assoc]

/-- The `Map` deduplication computes exactly the `jsDedup` reference
semantics. -/
theorem uniqueChanges_jsDedup_aux (l : List Change) : uniqueChanges l = jsDedup l := by
  rw [uniqueChanges, foldl_upsert_spec l []]
  have : l.filter (fun c => !keyMem [] c.id) = l := by
    apply List.filter_eq_self.mpr
    intro d _
    rfl
  rw [this]
  rfl

/-- C3, counterexample: for two records sharing id 7, the deduplication
keeps the record that appeared *last* (at the position of the first), not
the first occurrence as claimed: `new Map` updates the stored value on a
repeated key. -/
theorem dedup_keeps_first_counterexample :
    uniqueChanges [cDup1, cDup2] = [cDup2] ∧ uniqueChanges [cDup1, cDup2] ≠ [cDup1] := by
  decide

/-- C3, amended: deduplication removes records whose id equals the id of an
earlier record, keeping each id at the position of its *first* occurrence,
but the record object retained for a duplicated id is the one that appeared
*last* — exactly the `jsDedup` reference semantics. -/
theorem uniqueChanges_eq_jsDedup (l : List Change) : uniqueChanges l = jsDedup l :=
  uniqueChanges_jsDedup_aux l

/-- If no record of the list carries the key, the last-occurrence lookup is
`none`. -/
theorem lastWithId_eq_none (k : Int) (l : List Change) (h : ∀ d ∈ l, d.id ≠ k) :
    lastWithId k l = none := by
  induction l with
  | nil => rfl
  | cons c t ih =>
    have h1 : lastWithId k t = none := ih (fun d hd => h d (List.mem_cons_of_mem c hd))
    have h2 : c.id ≠ k := h c (List.mem_cons_self c t)
    simp [lastWithId, h1, h2]

/-- On a batch whose ids are pairwise distinct, `jsDedup` is the identity. -/
theorem jsDedup_of_nodup : ∀ (n : Nat) (l : List Change), l.length ≤ n →
    (l.map (fun c => c.id)).Nodup → jsDedup l = l := by
  intro n
  induction n with
  | zero =>
    intro l hl _
    have h0 : l = [] := List.eq_nil_of_length_eq_zero (Nat.le_zero.mp hl)
    rw [h0]
    simp [jsDedup]
  | succ n ih =>
    intro l hl hnodup
    cases l with
    | nil => simp [jsDedup]
    | cons c t =>
      rw [jsDedup]
      simp only [List.map_cons, List.nodup_cons] at hnodup
      obtain ⟨hcn, htn⟩ := hnodup
      have hne : ∀ d ∈ t, d.id ≠ c.id := by
        intro d hd he
        exact hcn (by rw [← he]; exact List.mem_map_of_mem _ hd)
      rw [lastWithId_eq_none c.id t hne]
      have hfil : t.filter (fun d => decide (d.id ≠ c.id)) = t :=
        List.filter_eq_self.mpr (fun d hd => decide_eq_true (hne d hd))
      rw [hfil]
      have hlt : t.length ≤ n := by
        simp only [List.length_cons] at hl
        omega
      rw [ih t hlt htn]
      rfl

/-- On a batch whose ids are pairwise distinct, the `Map` deduplication is
the identity. -/
theorem uniqueChanges_of_nodup (l : List Change)
    (h : (l.map (fun c => c.id)).Nodup) : uniqueChanges l = l := by
  rw [uniqueChanges_jsDedup_aux]
  exact jsDedup_of_nodup l.length l (le_refl _) h

/-- The newest-first merge sort is a permutation of its input. -/
theorem sortNewest_perm (l : List Change) : (sortNewest l).Perm l := by
  simpa [sortNewest] using List.mergeSort_perm l byNewest

/-- The newest-first merge sort is pairwise ordered by descending
timestamp. -/
theorem sortNewest_pairwise (l : List Change) :
    (sortNewest l).Pairwise (fun a b => b.timestamp ≤ a.timestamp) := by
  have h := @List.sorted_mergeSort Change byNewest
    (by
      intro a b c hab hbc
      simp only [byNewest, decide_eq_true_eq] at *
      omega)
    (by
      intro a b
      simp only [byNewest, Bool.or_eq_true, decide_eq_true_eq]
      omega)
    l
  have h2 : (l.mergeSort byNewest).Pairwise (fun a b => b.timestamp ≤ a.timestamp) := by
    apply h.imp
    intro a b hab
    simpa [byNewest] using hab
  simpa [sortNewest] using h2

/-- C4, counterexample: in the unsorted variant (`api/check-rss.ts`), when no
record passes the recency filter the fallback returns the *first* fetched
record, which need not be the most recent: here it returns `cOld` although
`cNew` in the same set has a strictly larger timestamp. -/
theorem fallback_not_max_counterexample :
    selectChanges [cOld, cNew] tLate 3 5 = ⟨[cOld], [], false⟩ ∧
    cOld.timestamp < cNew.timestamp ∧ cNew ∈ [cOld, cNew] := by
  decide

/-- C4, amended: when no record passes the recency filter, `select` returns
exactly one record — the head of the post-filter list — marked non-recent
(`isRecent = false`, the 📋/"Son Değişiklik" rendering).  In the variant that
sorts newest-first before deduplicating (`src/unnamed/part_003`), that record
is of maximal timestamp whenever the batch's ids are pairwise distinct. -/
theorem select_fallback_spec (changes : List Change) (now wh : Int) (cap : Nat)
    (hne : changes ≠ []) :
    (recentOf changes now wh cap = [] →
      selectChanges changes now wh cap = ⟨changes.take 1, [], false⟩) ∧
    ((changes.map (fun c => c.id)).Nodup →
      recentOf (uniqueChanges (sortNewest changes)) now 3 5 = [] →
      (selectSorted changes now).isRecent = false ∧
      ∃ m, (selectSorted changes now).toNotify = [m] ∧ m ∈ changes ∧
        ∀ c ∈ changes, c.timestamp ≤ m.timestamp) := by
  constructor
  · intro hrec
    simp only [selectChanges, hrec]
    simp
  · intro hnodup hrec
    have hperm := sortNewest_perm changes
    have hnodup2 : ((sortNewest changes).map (fun c => c.id)).Nodup :=
      ((hperm.map (fun c => c.id)).nodup_iff).mpr hnodup
    have huniq : uniqueChanges (sortNewest changes) = sortNewest changes :=
      uniqueChanges_of_nodup _ hnodup2
    have hsne : sortNewest changes ≠ [] := by
      intro h0
      have hlen := hperm.length_eq
      rw [h0] at hlen
      exact hne (List.eq_nil_of_length_eq_zero hlen.symm)
    rw [huniq] at hrec
    cases hs : sortNewest changes with
    | nil => exact absurd hs hsne
    | cons m rest =>
      rw [hs] at hrec
      have hsel : selectSorted changes now = ⟨[m], [], false⟩ := by
        rw [selectSorted, huniq, hs]
        simp only [selectChanges, hrec]
        simp
      refine ⟨by rw [hsel], m, by rw [hsel], ?_, ?_⟩
      · exact hperm.subset (by rw [hs]; exact List.mem_cons_self m rest)
      · intro c hc
        have hcs : c ∈ sortNewest changes := hperm.mem_iff.mpr hc
        have hsorted := sortNewest_pairwise changes
        rw [hs] at hcs hsorted
        rcases List.mem_cons.mp hcs with rfl | hcr
        · exact le_refl _
        · exact (List.pairwise_cons.mp hsorted).1 c hcr

/-- C4, witness at a concrete input exercising both conjuncts. -/
theorem select_fallback_spec_witness :
    selectChanges [cOld] tLate 3 5 = ⟨[cOld], [], false⟩ ∧
    (selectSorted [cOld] tLate).isRecent = false :=
  ⟨(select_fallback_spec [cOld] tLate 3 5 (by decide)).1 (by decide),
   ((select_fallback_spec [cOld] tLate 3 5 (by decide)).2 (by decide)
      (by rw [sortNewest, List.mergeSort_singleton]; decide)).1⟩

/-- One loop iteration appends exactly one `results` entry, described by
`projRecord` at the iteration's reference time and send index. -/
theorem processProject_results (f : Str → FetchResult) (t : Nat → TgResult) (now : Int)
    (st : RunState) (sub : Sub) :
    (processProject f t now st sub).results =
      st.results ++ [projRecord f t now st.sendIdx sub] := by
  cases hf : f sub.slug with
  | httpError code => simp [processProject, projRecord, hf]
  | exn m => simp [processProject, projRecord, hf]
  | ok changes =>
    by_cases h : changes.isEmpty <;> simp [processProject, projRecord, hf, h]

/-- The loop only appends to the `results` array. -/
theorem runProjects_results_append (f : Str → FetchResult) (t : Nat → TgResult)
    (nAt : Nat → Int) :
    ∀ (l : List Sub) (n : Nat) (st : RunState),
      ∃ tail, (runProjects f t nAt n st l).results = st.results ++ tail := by
  intro l
  induction l with
  | nil =>
    intro n st
    exact ⟨[], by simp [runProjects]⟩
  | cons s rest ih =>
    intro n st
    obtain ⟨tail, htail⟩ := ih (n + 1) (processProject f t (nAt n) st s)
    refine ⟨[projRecord f t (nAt n) st.sendIdx s] ++ tail, ?_⟩
    have h0 : runProjects f t nAt n st (s :: rest) =
        runProjects f t nAt (n + 1) (processProject f t (nAt n) st s) rest := rfl
    rw [h0, htail, processProject_results]
    simp [List.append_assoc]

/-- The loop never stops early: it appends one `results` entry per project. -/
theorem runProjects_length (f : Str → FetchResult) (t : Nat → TgResult) (nAt : Nat → Int) :
    ∀ (l : List Sub) (n : Nat) (st : RunState),
      (runProjects f t nAt n st l).results.length = st.results.length + l.length := by
  intro l
  induction l with
  | nil =>
    intro n st
    simp [runProjects]
  | cons s rest ih =>
    intro n st
    have h0 : runProjects f t nAt n st (s :: rest) =
        runProjects f t nAt (n + 1) (processProject f t (nAt n) st s) rest := rfl
    rw [h0, ih, processProject_results]
    simp
    omega

/-- The k-th `results` entry is the `projRecord` of the k-th project, at the
k-th iteration's reference time and some send index. -/
theorem runProjects_get (f : Str → FetchResult) (t : Nat → TgResult) (nAt : Nat → Int) :
    ∀ (l : List Sub) (n : Nat) (st : RunState) (k : Nat) (subK : Sub),
      l[k]? = some subK →
      ∃ sIdx, (runProjects f t nAt n st l).results[st.results.length + k]? =
        some (projRecord f t (nAt (n + k)) sIdx subK) := by
  intro l
  induction l with
  | nil =>
    intro n st k subK h
    simp at h
  | cons s rest ih =>
    intro n st k subK hk
    have h0 : runProjects f t nAt n st (s :: rest) =
        runProjects f t nAt (n + 1) (processProject f t (nAt n) st s) rest := rfl
    cases k with
    | zero =>
      have hsub : s = subK := by simpa using hk
      subst hsub
      obtain ⟨tail, htail⟩ :=
        runProjects_results_append f t nAt rest (n + 1) (processProject f t (nAt n) st s)
      refine ⟨st.sendIdx, ?_⟩
      rw [h0, htail, processProject_results, List.append_assoc]
      rw [List.getElem?_append_right (by omega)]
      simp
    | succ k' =>
      have hk' : rest[k']? = some subK := by simpa using hk
      obtain ⟨sIdx, hres⟩ := ih (n + 1) (processProject f t (nAt n) st s) k' subK hk'
      refine ⟨sIdx, ?_⟩
      rw [h0]
      have hlen : (processProject f t (nAt n) st s).results.length =
          st.results.length + 1 := by
        rw [processProject_results]
        simp
      rw [hlen] at hres
      have hidx : st.results.length + (k' + 1) = st.results.length + 1 + k' := by omega
      have harg : n + 1 + k' = n + (k' + 1) := by omega
      rw [harg] at hres
      rw [hidx]
      exact hres

/-- C2, counterexample: a run whose reported elapsed time is 1000000000 ms
(about 11.6 days — beyond any soft deadline under the host's execution-time
limit) still processes *both* projects, returns a normal success result for
each, and records no timeout outcome anywhere: the code never consults the
clock inside the loop. -/
theorem run_deadline_counterexample :
    handler envFull [subA, subB] fetchOkAll tgAllOk nowLate 0 tLate =
      ⟨200, .summary 2 0 2
        [⟨"Proj A".data, true, some 1, some 0, some 1, none, none⟩,
         ⟨"Proj B".data, true, some 1, some 0, some 1, none, none⟩] tLate, 5⟩ := by
  decide

/-- C2, amended: the coordinator reads the clock at start and end only to
report `execution_time_ms`; it performs no deadline check.  For every pair of
start/end times it processes every project — one `results` entry per project
— and the timing inputs influence nothing but the reported
`execution_time_ms`. -/
theorem run_no_deadline_spec (env : Env) (subs : List Sub) (fetchProj : Str → FetchResult)
    (tgSend : Nat → TgResult) (nowAt : Nat → Int)
    (hbt : truthy env.botToken = true) (hct : truthy env.chatId = true)
    (hak : truthy env.apiKey = true) (hne : subs ≠ []) :
    ∃ ts tr res nc,
      res.length = subs.length ∧
      ∀ startTime endTime,
        handler env subs fetchProj tgSend nowAt startTime endTime =
          ⟨200, .summary ts tr subs.length res (endTime - startTime), nc⟩ := by
  have hie : subs.isEmpty = false := by
    cases subs with
    | nil => exact absurd rfl hne
    | cons a l => rfl
  refine ⟨(runProjects fetchProj tgSend nowAt 0 ⟨0, 0, [], 1, 0⟩ subs).totalSent,
    (runProjects fetchProj tgSend nowAt 0 ⟨0, 0, [], 1, 0⟩ subs).totalRecent,
    (runProjects fetchProj tgSend nowAt 0 ⟨0, 0, [], 1, 0⟩ subs).results,
    (runProjects fetchProj tgSend nowAt 0 ⟨0, 0, [], 1, 0⟩ subs).netCalls, ?_, ?_⟩
  · rw [runProjects_length]
    simp
  · intro startTime endTime
    simp [handler, hbt, hct, hak, hie]

/-- C2, witness: the amended statement at a concrete configuration. -/
theorem run_no_deadline_spec_witness :
    ∃ ts tr res nc,
      res.length = 2 ∧
      ∀ startTime endTime,
        handler envFull [subA, subB] fetchOkAll tgAllOk nowLate startTime endTime =
          ⟨200, .summary ts tr 2 res (endTime - startTime), nc⟩ :=
  run_no_deadline_spec envFull [subA, subB] fetchOkAll tgAllOk nowLate
    (by decide) (by decide) (by decide) (by decide)

/-- C8: a failing fetch for one project does not abort the run.  With the
configuration present, if the fetch of project `i` fails with an HTTP error
and the fetch of project `j` succeeds, the handler still answers HTTP 200 with one
`ProjectResult` per project: entry `i` is `success = false` with error
`"HTTP <code>"`, and entry `j` is `success = true`. -/
theorem handler_partial_failure (env : Env) (subs : List Sub)
    (fetchProj : Str → FetchResult) (tgSend : Nat → TgResult) (nowAt : Nat → Int)
    (startTime endTime : Int) (i j : Nat) (subI subJ : Sub) (code : Nat) (chs : List Change)
    (hbt : truthy env.botToken = true) (hct : truthy env.chatId = true)
    (hak : truthy env.apiKey = true)
    (hi : subs[i]? = some subI) (hfi : fetchProj subI.slug = .httpError code)
    (hj : subs[j]? = some subJ) (hfj : fetchProj subJ.slug = .ok chs) :
    ∃ ts tr res nc,
      handler env subs fetchProj tgSend nowAt startTime endTime =
        ⟨200, .summary ts tr subs.length res (endTime - startTime), nc⟩ ∧
      res.length = subs.length ∧
      res[i]? = some ⟨subI.name, false, none, none, none,
        some ("HTTP ".data ++ natStr code), none⟩ ∧
      ∃ r, res[j]? = some r ∧ r.success = true ∧ r.project = subJ.name := by
  have hne : subs ≠ [] := by
    intro h0
    rw [h0] at hi
    simp at hi
  have hie : subs.isEmpty = false := by
    cases subs with
    | nil => exact absurd rfl hne
    | cons a l => rfl
  refine ⟨(runProjects fetchProj tgSend nowAt 0 ⟨0, 0, [], 1, 0⟩ subs).totalSent,
    (runProjects fetchProj tgSend nowAt 0 ⟨0, 0, [], 1, 0⟩ subs).totalRecent,
    (runProjects fetchProj tgSend nowAt 0 ⟨0, 0, [], 1, 0⟩ subs).results,
    (runProjects fetchProj tgSend nowAt 0 ⟨0, 0, [], 1, 0⟩ subs).netCalls, ?_, ?_, ?_, ?_⟩
  · simp [handler, hbt, hct, hak, hie]
  · rw [runProjects_length]
    simp
  · obtain ⟨sIdx, hres⟩ :=
      runProjects_get fetchProj tgSend nowAt subs 0 ⟨0, 0, [], 1, 0⟩ i subI hi
    simp only [Nat.zero_add] at hres
    simp only [projRecord, hfi] at hres
    simpa using hres
  · obtain ⟨sIdx, hres⟩ :=
      runProjects_get fetchProj tgSend nowAt subs 0 ⟨0, 0, [], 1, 0⟩ j subJ hj
    simp only [Nat.zero_add] at hres
    refine ⟨projRecord fetchProj tgSend (nowAt j) sIdx subJ, by simpa using hres, ?_, ?_⟩
    · by_cases h : chs.isEmpty <;> simp [projRecord, hfj, h]
    · by_cases h : chs.isEmpty <;> simp [projRecord, hfj, h]

/-- C8, witness: project A's fetch fails with HTTP 503, project B succeeds;
both results are present and the response is HTTP 200. -/
theorem handler_partial_failure_witness :
    ∃ ts tr res nc,
      handler envFull [subA, subB] fetchAFails tgAllOk nowLate 0 7 =
        ⟨200, .summary ts tr 2 res (7 - 0), nc⟩ ∧
      res.length = 2 ∧
      res[0]? = some ⟨subA.name, false, none, none, none,
        some ("HTTP ".data ++ natStr 503), none⟩ ∧
      ∃ r, res[1]? = some r ∧ r.success = true ∧ r.project = subB.name :=
  handler_partial_failure envFull [subA, subB] fetchAFails tgAllOk nowLate 0 7 0 1
    subA subB 503 [cNew] (by decide) (by decide) (by decide) (by decide) (by decide)
    (by decide) (by decide)

end Webteg
